import Mathlib

/-!
Shallow embedding of the quantitative-research knowledge-graph manager
(`src/index.ts` and the compiled deployment variant `src/unnamed/part_000`).

Entities, relations and the whole-graph aggregate are translated as plain
structures over `String` lists.  Every mutating operation of the
`KnowledgeGraphManager` class is translated as a pure function from the
loaded graph (plus arguments) to either an error or the graph that the
operation passes to `saveGraph` together with the returned value; a thrown
`Error` in the source becomes an `Except.error`, and since the source only
calls `saveGraph` on the non-throwing path, the persisted file after a call
is the `.ok` graph on success and the unchanged input graph on error
(function `persistedAfter` below).
-/

deriving instance DecidableEq for Except

namespace QR

/-- Entity record of the source: `{ name, entityType, observations }`. -/
structure Entity where
  name : String
  entityType : String
  observations : List String
deriving DecidableEq, Repr

/-- Relation record of the source: `{ from, to, relationType }`. -/
structure Relation where
  «from» : String
  «to» : String
  relationType : String
deriving DecidableEq, Repr

/-- Aggregate `{ entities, relations }` persisted as one JSON unit. -/
structure KnowledgeGraph where
  entities : List Entity
  relations : List Relation
deriving DecidableEq, Repr

/-- Error taxonomy of the manager.  The source throws `Error` objects whose
messages follow fixed templates; each constructor records the template used
and the offending string. -/
inductive GraphError where
  | entityNotFound (name : String)
  | invalidEntityType (t : String)
  | invalidRelationType (t : String)
  | invalidStatusValue (v : String)
  | invalidPriorityValue (v : String)
  | projectNotFound (name : String)
deriving DecidableEq, Repr

/-- Valid entity types of the `src/index.ts` deployment. -/
def VALID_ENTITY_TYPES : List String :=
  ["project", "dataset", "variable", "hypothesis", "statisticalTest",
   "result", "analysisScript", "visualization", "model", "literature",
   "researchQuestion", "finding", "participant"]

/-- Valid relation types of the `src/index.ts` deployment. -/
def VALID_RELATION_TYPES : List String :=
  ["correlates_with", "predicts", "tests", "analyzes", "produces",
   "visualizes", "contains", "part_of", "depends_on", "supports",
   "contradicts", "derived_from", "controls_for", "moderates", "mediates",
   "implements", "compares", "includes", "validates", "cites"]

/-- Valid entity types of the `src/unnamed/part_000` deployment variant
(adds `status` and `priority`). -/
def VALID_ENTITY_TYPES_B : List String :=
  ["project", "dataset", "variable", "hypothesis", "statisticalTest",
   "result", "analysisScript", "visualization", "model", "literature",
   "researchQuestion", "finding", "participant", "status", "priority"]

/-- Valid relation types of the `src/unnamed/part_000` deployment variant. -/
def VALID_RELATION_TYPES_B : List String :=
  ["contains", "derived_from", "analyzes", "produced_by", "supports",
   "contradicts", "based_on", "cites", "addresses", "precedes",
   "has_status", "has_priority"]

/-- `VALID_STATUS_VALUES` of `src/unnamed/part_000`. -/
def VALID_STATUS_VALUES : List String := ["active", "completed", "pending", "abandoned"]

/-- `VALID_PRIORITY_VALUES` of `src/unnamed/part_000`. -/
def VALID_PRIORITY_VALUES : List String := ["high", "low"]

/-- Names of the entities of a graph, as the source computes them:
`graph.entities.map(e => e.name)` (membership standing in for the `Set`). -/
def entityNames (g : KnowledgeGraph) : List String :=
  g.entities.map Entity.name

/-- Dedup key of a relation: the template string
`from + ":" + to + ":" + relationType` used by `createRelations`. -/
def relKey (r : Relation) : String :=
  r.«from» ++ ":" ++ r.«to» ++ ":" ++ r.relationType

/-- Persisted graph after a call that returns a graph-and-value pair:
the source writes the in-memory graph with `saveGraph` only on the
non-throwing path, so an error leaves the file as it was. -/
def persistedAfter (g : KnowledgeGraph)
    (r : Except GraphError (KnowledgeGraph × α)) : KnowledgeGraph :=
  match r with
  | .ok (g2, _) => g2
  | .error _ => g

/-- Persisted graph after a call that returns no value (the status and
priority setters). -/
def persistedAfterSet (g : KnowledgeGraph)
    (r : Except GraphError KnowledgeGraph) : KnowledgeGraph :=
  match r with
  | .ok g2 => g2
  | .error _ => g

/-- `createEntities`: validates every entityType against the closed set
(first invalid entry throws), drops entries whose name already exists,
appends the survivors, returns the newly added entities. -/
def createEntities (V : List String) (g : KnowledgeGraph) (entities : List Entity) :
    Except GraphError (KnowledgeGraph × List Entity) :=
  let existingEntityNames := entityNames g
  match entities.find? (fun e => !(V.contains e.entityType)) with
  | some e => .error (.invalidEntityType e.entityType)
  | none =>
    let newEntities := entities.filter (fun e => !(existingEntityNames.contains e.name))
    .ok ({ g with entities := g.entities ++ newEntities }, newEntities)

/-- Per-relation check of `createRelations`, in source order: `from`
exists, `to` exists, `relationType` valid.  Returns the error the source
would throw, if any. -/
def relationCheck (names V : List String) (r : Relation) : Option GraphError :=
  if !(names.contains r.«from») then some (.entityNotFound r.«from»)
  else if !(names.contains r.«to») then some (.entityNotFound r.«to»)
  else if !(V.contains r.relationType) then some (.invalidRelationType r.relationType)
  else none

/-- `createRelations`: checks every relation (first failing check throws),
filters out relations whose dedup key is already present, appends the
rest, returns the newly added relations. -/
def createRelations (V : List String) (g : KnowledgeGraph) (relations : List Relation) :
    Except GraphError (KnowledgeGraph × List Relation) :=
  let existingEntityNames := entityNames g
  match relations.findSome? (relationCheck existingEntityNames V) with
  | some err => .error err
  | none =>
    let existingRelations := g.relations.map relKey
    let newRelations := relations.filter (fun r => !(existingRelations.contains (relKey r)))
    .ok ({ g with relations := g.relations ++ newRelations }, newRelations)

/-- Appends observations to the first entity with the given name, which is
the object `graph.entities.find(...)` returns and the source mutates in
place. -/
def pushObsFirst : List Entity → String → List String → List Entity
  | [], _, _ => []
  | e :: rest, n, objs =>
    if e.name == n then { e with observations := e.observations ++ objs } :: rest
    else e :: pushObsFirst rest n objs

/-- One argument record of `addObservations`. -/
structure ObservationAdd where
  entityName : String
  contents : List String
deriving DecidableEq, Repr

/-- One result record of `addObservations`. -/
structure ObservationResult where
  entityName : String
  addedObservations : List String
deriving DecidableEq, Repr

/-- Loop body of `addObservations`: for each target in order, find the
entity (throw `EntityNotFound` if absent), append the not-yet-present
content strings, and record what was added.  The graph is threaded through
because the source mutates it in place as the loop runs. -/
def addObservationsGo : KnowledgeGraph → List ObservationAdd →
    Except GraphError (KnowledgeGraph × List ObservationResult)
  | g, [] => .ok (g, [])
  | g, o :: rest =>
    match g.entities.find? (fun e => e.name == o.entityName) with
    | none => .error (.entityNotFound o.entityName)
    | some entity =>
      let newObservations := o.contents.filter (fun c => !(entity.observations.contains c))
      let g2 : KnowledgeGraph :=
        { g with entities := pushObsFirst g.entities o.entityName newObservations }
      match addObservationsGo g2 rest with
      | .error e => .error e
      | .ok (g3, results) => .ok (g3, ⟨o.entityName, newObservations⟩ :: results)

/-- `addObservations` of the source. -/
def addObservations (g : KnowledgeGraph) (observations : List ObservationAdd) :
    Except GraphError (KnowledgeGraph × List ObservationResult) :=
  addObservationsGo g observations

/-- `deleteEntities`: removes matching entities and every relation whose
`from` or `to` is one of the deleted names; never fails. -/
def deleteEntities (g : KnowledgeGraph) (names : List String) : KnowledgeGraph :=
  { entities := g.entities.filter (fun e => !(names.contains e.name)),
    relations := g.relations.filter (fun r =>
      !(names.contains r.«from») && !(names.contains r.«to»)) }

/-- One argument record of `deleteObservations`. -/
structure ObservationDelete where
  entityName : String
  observations : List String
deriving DecidableEq, Repr

/-- Removes the listed observation strings from the first entity with the
given name (the object the source `find` returns and mutates); a missing
entity is silently skipped. -/
def removeObsFirst : List Entity → String → List String → List Entity
  | [], _, _ => []
  | e :: rest, n, objs =>
    if e.name == n then
      { e with observations := e.observations.filter (fun o => !(objs.contains o)) } :: rest
    else e :: removeObsFirst rest n objs

/-- `deleteObservations` of the source; never fails. -/
def deleteObservations (g : KnowledgeGraph) (deletions : List ObservationDelete) :
    KnowledgeGraph :=
  deletions.foldl
    (fun g d => { g with entities := removeObsFirst g.entities d.entityName d.observations })
    g

/-- `deleteRelations`: removes relations matching the exact triple. -/
def deleteRelations (g : KnowledgeGraph) (relations : List Relation) : KnowledgeGraph :=
  { g with relations := g.relations.filter (fun r =>
      !(relations.any (fun d =>
        r.«from» == d.«from» && r.«to» == d.«to» && r.relationType == d.relationType))) }

/-- Character-wise lowering, the embedding of `toLowerCase()`. -/
def lower (s : String) : String := ⟨s.data.map Char.toLower⟩

/-- Substring test, the embedding of `String.prototype.includes`. -/
def strIncludes (hay needle : String) : Bool :=
  hay.data.tails.any (fun t => needle.data.isPrefixOf t)

/-- Split worker for the query tokenizer: splits on maximal whitespace
runs keeping the (possibly empty) pieces before the first run and after
the last one, exactly as `split(/\s+/)` does. -/
def jsSplitGo : List Char → Bool → List Char → List String
  | [], _, acc => [⟨acc.reverse⟩]
  | c :: rest, prevWs, acc =>
    if c.isWhitespace then
      if prevWs then jsSplitGo rest true acc
      else ⟨acc.reverse⟩ :: jsSplitGo rest true []
    else jsSplitGo rest false (c :: acc)

/-- Embedding of `query.split(/\s+/)`. -/
def jsSplitWhitespace (s : String) : List String := jsSplitGo s.data false []

/-- Search terms of a query: `query.toLowerCase().split(/\s+/)`. -/
def queryTerms (query : String) : List String := jsSplitWhitespace (lower query)

/-- Term test of `searchNodes`: the term matches the entity name, the
entity type, or some observation (all lowercased, substring test). -/
def entityMatchesTerms (terms : List String) (e : Entity) : Bool :=
  terms.all (fun term =>
    strIncludes (lower e.name) term ||
    strIncludes (lower e.entityType) term ||
    e.observations.any (fun o => strIncludes (lower o) term))

/-- `searchNodes`: entities matching every term, plus the relations whose
both endpoints are in the matching-name set. -/
def searchNodes (g : KnowledgeGraph) (query : String) : KnowledgeGraph :=
  let terms := queryTerms query
  let matchingEntityNames := (g.entities.filter (entityMatchesTerms terms)).map Entity.name
  { entities := g.entities.filter (fun e => matchingEntityNames.contains e.name),
    relations := g.relations.filter (fun r =>
      matchingEntityNames.contains r.«from» && matchingEntityNames.contains r.«to») }

/-- `setEntityStatus` of `src/unnamed/part_000`: rejects a value outside
`VALID_STATUS_VALUES`, otherwise drops every `has_status` relation whose
`from` is the entity and appends one pointing at `status:<value>`. -/
def setEntityStatus (g : KnowledgeGraph) (entityName statusValue : String) :
    Except GraphError KnowledgeGraph :=
  if !(VALID_STATUS_VALUES.contains statusValue) then
    .error (.invalidStatusValue statusValue)
  else
    .ok { g with relations :=
      g.relations.filter (fun r => !(r.«from» == entityName && r.relationType == "has_status"))
        ++ [⟨entityName, "status:" ++ statusValue, "has_status"⟩] }

/-- `setEntityPriority` of `src/unnamed/part_000`, same shape as
`setEntityStatus` with the priority value set and relation type. -/
def setEntityPriority (g : KnowledgeGraph) (entityName priorityValue : String) :
    Except GraphError KnowledgeGraph :=
  if !(VALID_PRIORITY_VALUES.contains priorityValue) then
    .error (.invalidPriorityValue priorityValue)
  else
    .ok { g with relations :=
      g.relations.filter (fun r => !(r.«from» == entityName && r.relationType == "has_priority"))
        ++ [⟨entityName, "priority:" ++ priorityValue, "has_priority"⟩] }

/-- `initializeStatusAndPriority` of `src/unnamed/part_000`: pushes one
`status:<v>` entity per valid status value and one `priority:<v>` entity
per valid priority value, skipping the ones already present. -/
def initStatusAndPriority (g : KnowledgeGraph) : KnowledgeGraph :=
  let g1 := VALID_STATUS_VALUES.foldl
    (fun g v =>
      let n := "status:" ++ v
      if g.entities.any (fun e => e.name == n && e.entityType == "status") then g
      else { g with entities := g.entities ++ [⟨n, "status", ["A " ++ v ++ " status value"]⟩] })
    g
  VALID_PRIORITY_VALUES.foldl
    (fun g v =>
      let n := "priority:" ++ v
      if g.entities.any (fun e => e.name == n && e.entityType == "priority") then g
      else { g with entities := g.entities ++ [⟨n, "priority", ["A " ++ v ++ " priority value"]⟩] })
    g1

/-- Nested `dataCollection` object of the project overview. -/
structure DataCollection where
  datasets : Nat
  totalVariables : Nat
  datasetList : List Entity
deriving DecidableEq, Repr

/-- Nested `analysis` object of the project overview. -/
structure AnalysisInfo where
  hypotheses : Nat
  models : Nat
  hypothesisList : List Entity
  modelsList : List Entity
deriving DecidableEq, Repr

/-- Return object of `getProjectOverview`. -/
structure ProjectOverview where
  project : Entity
  researchQuestions : List Entity
  methodology : List String
  participants : List String
  dataCollection : DataCollection
  analysis : AnalysisInfo
  findings : List Entity
deriving DecidableEq, Repr

/-- Shared loop of `getProjectOverview`: for each `part_of` relation into
the project, look up the source entity when it has the wanted type.  The
source repeats this loop once per entity type. -/
def partOfOfType (g : KnowledgeGraph) (projectName ty : String) : List Entity :=
  g.relations.filterMap (fun rel =>
    if rel.relationType == "part_of" && rel.«to» == projectName then
      g.entities.find? (fun e => e.name == rel.«from» && e.entityType == ty)
    else none)

/-- Inner loop of the variable count of `getProjectOverview`: the
`contains` relations out of a dataset whose target is a variable entity. -/
def datasetVariables (g : KnowledgeGraph) (datasetName : String) : List Entity :=
  g.relations.filterMap (fun rel =>
    if rel.relationType == "contains" && rel.«from» == datasetName then
      g.entities.find? (fun e => e.name == rel.«to» && e.entityType == "variable")
    else none)

/-- `getProjectOverview`: finds the project entity (throws when absent),
collects the `part_of`-linked entities by type, filters the project
observations by methodology and participant keywords, and counts the
variables of the linked datasets with a second hop.  Read-only: the
source never calls `saveGraph` here. -/
def getProjectOverview (g : KnowledgeGraph) (projectName : String) :
    Except GraphError ProjectOverview :=
  match g.entities.find? (fun e => e.name == projectName && e.entityType == "project") with
  | none => .error (.projectNotFound projectName)
  | some project =>
    let researchQuestions := partOfOfType g projectName "researchQuestion"
    let datasets := partOfOfType g projectName "dataset"
    let hypotheses := partOfOfType g projectName "hypothesis"
    let models := partOfOfType g projectName "model"
    let findings := partOfOfType g projectName "finding"
    let methodologyObs := project.observations.filter (fun o =>
      strIncludes (lower o) "method" || strIncludes (lower o) "approach" ||
      strIncludes (lower o) "design")
    let participantInfo := project.observations.filter (fun o =>
      strIncludes (lower o) "participant" || strIncludes (lower o) "sample" ||
      strIncludes (lower o) "subject")
    let totalVariables := datasets.foldl
      (fun acc dataset => acc + (datasetVariables g dataset.name).length) 0
    .ok { project := project
          researchQuestions := researchQuestions
          methodology := methodologyObs
          participants := participantInfo
          dataCollection :=
            { datasets := datasets.length
              totalVariables := totalVariables
              datasetList := datasets }
          analysis :=
            { hypotheses := hypotheses.length
              models := models.length
              hypothesisList := hypotheses
              modelsList := models }
          findings := findings }

/-- Update-existing-entity path of the endsession assembly commit: the
source issues `deleteEntities([name])` followed by `createEntities` with
the rebuilt observation list (dataset, model and project-status update
paths all have this shape). -/
def updateEntityViaDeleteCreate (V : List String) (g : KnowledgeGraph)
    (name entityType : String) (observations : List String) :
    Except GraphError (KnowledgeGraph × List Entity) :=
  createEntities V (deleteEntities g [name]) [⟨name, entityType, observations⟩]

/-- Referential integrity: every relation endpoint names an entity present
in the graph. -/
def RefIntact (g : KnowledgeGraph) : Prop :=
  ∀ r ∈ g.relations, r.«from» ∈ entityNames g ∧ r.«to» ∈ entityNames g

/-- Executable referential-integrity check. -/
def refIntactB (g : KnowledgeGraph) : Bool :=
  g.relations.all (fun r =>
    (entityNames g).contains r.«from» && (entityNames g).contains r.«to»)

/-- Success discriminator for an operation result. -/
def exceptOk : Except GraphError α → Bool
  | .ok _ => true
  | .error _ => false

/-- Discriminator for the `EntityNotFound` error family. -/
def isEntityNotFoundErr : Except GraphError α → Bool
  | .error (.entityNotFound _) => true
  | _ => false

/-- Observation list of the first entity with the given name (the entity
`graph.entities.find(...)` returns), empty when there is none. -/
def obsOf (g : KnowledgeGraph) (n : String) : List String :=
  ((g.entities.find? (fun e => e.name == n)).map Entity.observations).getD []

/-- Example graph for the C1 analysis: entity `A` exists, `Ghost` does not. -/
def gC1 : KnowledgeGraph := ⟨[⟨"A", "project", []⟩], []⟩

/-- Relation batch whose first element has an invalid relation type and
whose second element points at the missing entity `Ghost`. -/
def relsC1 : List Relation := [⟨"A", "A", "not_a_relation"⟩, ⟨"A", "Ghost", "contains"⟩]

/-- Duplicate-name entity carrying an invalid entity type. -/
def eC2 : Entity := ⟨"A", "not_a_type", ["x"]⟩

/-- Witness graph for the no-partial-commit analysis. -/
def gW3 : KnowledgeGraph := ⟨[⟨"A", "project", ["p"]⟩], []⟩

/-- Relation triple whose dedup key collides with `rColl2`. -/
def rColl1 : Relation := ⟨"a", "b:c", "contains"⟩

/-- Distinct relation triple with the same colon-joined key as `rColl1`. -/
def rColl2 : Relation := ⟨"a:b", "c", "contains"⟩

/-- Graph holding `rColl2` and all four endpoint entities. -/
def gC4 : KnowledgeGraph :=
  ⟨[⟨"a", "variable", []⟩, ⟨"b:c", "variable", []⟩,
    ⟨"a:b", "variable", []⟩, ⟨"c", "variable", []⟩], [rColl2]⟩

/-- Witness graph: `X` linked to `Y` by one `contains` relation. -/
def gW5 : KnowledgeGraph :=
  ⟨[⟨"X", "dataset", []⟩, ⟨"Y", "variable", []⟩], [⟨"X", "Y", "contains"⟩]⟩

/-- Witness graph for search: the spec example entity plus one distractor
that only one token matches. -/
def gW6 : KnowledgeGraph :=
  ⟨[⟨"Age_Income_Regression", "statisticalTest", ["tests income vs age"]⟩,
    ⟨"Income_Distribution", "visualization", ["income histogram"]⟩],
   [⟨"Age_Income_Regression", "Income_Distribution", "produces"⟩]⟩

/-- Semantic version of the per-term search test: the lowered term is an
infix of the lowered name, of the lowered entity type, or of some lowered
observation. -/
def TermMatchesE (t : String) (e : Entity) : Prop :=
  t.data <:+: (lower e.name).data ∨ t.data <:+: (lower e.entityType).data ∨
    ∃ o ∈ e.observations, t.data <:+: (lower o).data

/-- The empty graph. -/
def emptyG : KnowledgeGraph := ⟨[], []⟩

/-- Witness graph with the `status:active` and `priority:high` entities
present. -/
def gW8 : KnowledgeGraph :=
  ⟨[⟨"P1", "project", []⟩, ⟨"status:active", "status", []⟩,
    ⟨"priority:high", "priority", []⟩], []⟩

/-- The graph the process starts from: the empty graph after
`initializeStatusAndPriority` has run. -/
def gInit : KnowledgeGraph := initStatusAndPriority emptyG

/-- Spec example graph: project `Proj`, dataset `D` part of it, variable
`V` contained in `D`. -/
def gC9 : KnowledgeGraph :=
  ⟨[⟨"Proj", "project", []⟩, ⟨"D", "dataset", []⟩, ⟨"V", "variable", []⟩],
   [⟨"D", "Proj", "part_of"⟩, ⟨"D", "V", "contains"⟩]⟩

/-- Witness graph for the update-path analysis: dataset `D` with two
incident relations. -/
def gW10 : KnowledgeGraph :=
  ⟨[⟨"Proj", "project", []⟩, ⟨"D", "dataset", ["size:10"]⟩, ⟨"V", "variable", []⟩],
   [⟨"D", "Proj", "part_of"⟩, ⟨"D", "V", "contains"⟩]⟩

theorem refIntactB_iff (g : KnowledgeGraph) : refIntactB g = true ↔ RefIntact g := by
  simp [refIntactB, RefIntact]

theorem mem_entityNames {g : KnowledgeGraph} {n : String} :
    n ∈ entityNames g ↔ ∃ e ∈ g.entities, e.name = n := by
  simp [entityNames]

theorem strIncludes_iff (hay needle : String) :
    strIncludes hay needle = true ↔ needle.data <:+: hay.data := by
  simp only [strIncludes, List.any_eq_true, List.mem_tails, List.isPrefixOf_iff_prefix]
  rw [List.infix_iff_prefix_suffix]
  constructor
  · rintro ⟨t, h1, h2⟩; exact ⟨t, h2, h1⟩
  · rintro ⟨t, h1, h2⟩; exact ⟨t, h2, h1⟩

/-- C5: `deleteEntities(names)` removes exactly the entities whose name is
in `names` and exactly the relations with an endpoint in `names`, leaving
everything else intact; a listed name carried by no entity contributes
nothing (a no-op, never an error). -/
theorem C5_cascade_delete (g : KnowledgeGraph) (names : List String) :
    (∀ e, e ∈ (deleteEntities g names).entities ↔ e ∈ g.entities ∧ e.name ∉ names) ∧
    (∀ r, r ∈ (deleteEntities g names).relations ↔
      r ∈ g.relations ∧ r.«from» ∉ names ∧ r.«to» ∉ names) ∧
    (∀ n, RefIntact g → n ∉ entityNames g →
      deleteEntities g (n :: names) = deleteEntities g names) := by
  refine ⟨?_, ?_, ?_⟩
  · intro e
    simp [deleteEntities, List.mem_filter]
  · intro r
    simp [deleteEntities, List.mem_filter]
  · intro n hri hn
    have hname : ∀ e ∈ g.entities, e.name ≠ n := by
      intro e he heq
      exact hn (mem_entityNames.mpr ⟨e, he, heq⟩)
    unfold deleteEntities
    congr 1
    · refine List.filter_congr ?_
      intro e he
      have : (e.name == n) = false := by
        simp [hname e he]
      simp [List.contains_cons, this]
      intro h
      simp_all
    · refine List.filter_congr ?_
      intro r hr
      obtain ⟨hf, ht⟩ := hri r hr
      have hfne : r.«from» ≠ n := fun heq => hn (heq ▸ hf)
      have htne : r.«to» ≠ n := fun heq => hn (heq ▸ ht)
      simp [List.contains_cons, hfne, htne]

/-- Witness for C5 at the spec scenario: deleting `X` removes `X` and the
relation `X contains Y` while keeping `Y`; deleting the absent name
`Ghost` changes nothing. -/
theorem C5_cascade_delete_witness :
    ((⟨"Y", "variable", []⟩ : Entity) ∈ (deleteEntities gW5 ["X"]).entities) ∧
    ((⟨"X", "dataset", []⟩ : Entity) ∉ (deleteEntities gW5 ["X"]).entities) ∧
    ((⟨"X", "Y", "contains"⟩ : Relation) ∉ (deleteEntities gW5 ["X"]).relations) ∧
    deleteEntities gW5 ("Ghost" :: []) = deleteEntities gW5 [] := by
  refine ⟨?_, ?_, ?_, ?_⟩
  · exact ((C5_cascade_delete gW5 ["X"]).1 _).mpr ⟨by decide, by decide⟩
  · intro h
    exact absurd (((C5_cascade_delete gW5 ["X"]).1 _).mp h).2 (by decide)
  · intro h
    exact absurd (((C5_cascade_delete gW5 ["X"]).2.1 _).mp h).2.1 (by decide)
  · exact (C5_cascade_delete gW5 []).2.2 "Ghost"
      ((refIntactB_iff gW5).mp (by decide)) (by decide)

/-- C7: `setEntityStatus` rejects a value outside the closed status set
leaving the persisted graph unchanged; on a valid value the resulting
graph has exactly one `has_status` edge out of the entity, pointing at
`status:<value>`; after two successive calls the single edge points at the
second value. -/
theorem C7_status_singularity (g : KnowledgeGraph) (n v v1 v2 : String) :
    (v ∉ VALID_STATUS_VALUES →
      setEntityStatus g n v = .error (.invalidStatusValue v) ∧
      persistedAfterSet g (setEntityStatus g n v) = g) ∧
    (v ∈ VALID_STATUS_VALUES →
      (persistedAfterSet g (setEntityStatus g n v)).relations.filter
          (fun r => r.«from» == n && r.relationType == "has_status") =
        [⟨n, "status:" ++ v, "has_status"⟩]) ∧
    (v1 ∈ VALID_STATUS_VALUES → v2 ∈ VALID_STATUS_VALUES →
      (persistedAfterSet (persistedAfterSet g (setEntityStatus g n v1))
          (setEntityStatus (persistedAfterSet g (setEntityStatus g n v1)) n v2)).relations.filter
          (fun r => r.«from» == n && r.relationType == "has_status") =
        [⟨n, "status:" ++ v2, "has_status"⟩]) := by
  have key : ∀ (g' : KnowledgeGraph) (w : String), w ∈ VALID_STATUS_VALUES →
      (persistedAfterSet g' (setEntityStatus g' n w)).relations.filter
          (fun r => r.«from» == n && r.relationType == "has_status") =
        [⟨n, "status:" ++ w, "has_status"⟩] := by
    intro g' w hw
    have hc : (VALID_STATUS_VALUES.contains w) = true := by simpa using hw
    have hnil : (g'.relations.filter (fun r =>
        !(r.«from» == n && r.relationType == "has_status"))).filter
        (fun r => r.«from» == n && r.relationType == "has_status") = [] := by
      refine List.filter_eq_nil_iff.mpr ?_
      intro r hr
      have hq := (List.mem_filter.mp hr).2
      simp at hq ⊢
      tauto
    rw [setEntityStatus, if_neg (by simpa using hw)]
    simp only [persistedAfterSet]
    rw [List.filter_append, hnil, List.nil_append]
    simp
  refine ⟨?_, ?_, ?_⟩
  · intro hv
    have hc : (VALID_STATUS_VALUES.contains v) = false := by
      cases hb : VALID_STATUS_VALUES.contains v
      · rfl
      · exact absurd (by simpa using hb) hv
    have herr : setEntityStatus g n v = .error (.invalidStatusValue v) := by
      rw [setEntityStatus, if_pos (by simpa using hv)]
    refine ⟨herr, ?_⟩
    rw [herr]
    simp only [persistedAfterSet]
  · intro hv
    exact key g v hv
  · intro hv1 hv2
    exact key _ v2 hv2

theorem relationCheck_eq_none_iff (names V : List String) (r : Relation) :
    relationCheck names V r = none ↔
      r.«from» ∈ names ∧ r.«to» ∈ names ∧ r.relationType ∈ V := by
  unfold relationCheck
  split_ifs with h1 h2 h3 <;> simp_all

theorem relationCheck_some_cases (names V : List String) (r : Relation) (err : GraphError)
    (h : relationCheck names V r = some err) :
    (∃ n, n ∉ names ∧ err = .entityNotFound n) ∨
    (r.relationType ∉ V ∧ err = .invalidRelationType r.relationType) := by
  unfold relationCheck at h
  split_ifs at h with h1 h2 h3
  · cases h; exact .inl ⟨r.«from», by simpa using h1, rfl⟩
  · cases h; exact .inl ⟨r.«to», by simpa using h2, rfl⟩
  · cases h; exact .inr ⟨by simpa using h3, rfl⟩

/-- C1 fails as stated: with a batch whose first relation carries an
invalid relation type and whose second relation points at the absent
entity `Ghost`, the call errors with the invalid-type error, not with an
`EntityNotFound` error, even though some relation of the batch names a
missing entity. -/
theorem C1_counterexample :
    (relsC1.any (fun r => !((entityNames gC1).contains r.«to»))) = true ∧
    exceptOk (createRelations VALID_RELATION_TYPES gC1 relsC1) = false ∧
    isEntityNotFoundErr (createRelations VALID_RELATION_TYPES gC1 relsC1) = false := by
  decide

/-- C1 amended: when some relation of the batch names a missing `from` or
`to` entity, `createRelations` fails and the persisted graph is exactly
what it was before the call; moreover, when every relation type of the
batch is valid, the error is `EntityNotFound` naming a missing entity
(the invalid-type proviso is what the counterexample forces). -/
theorem C1_referential_integrity_amended (g : KnowledgeGraph) (rels : List Relation)
    (h : ∃ r ∈ rels, r.«from» ∉ entityNames g ∨ r.«to» ∉ entityNames g) :
    (∃ err, createRelations VALID_RELATION_TYPES g rels = .error err) ∧
    persistedAfter g (createRelations VALID_RELATION_TYPES g rels) = g ∧
    ((∀ r ∈ rels, r.relationType ∈ VALID_RELATION_TYPES) →
      ∃ n, n ∉ entityNames g ∧
        createRelations VALID_RELATION_TYPES g rels = .error (.entityNotFound n)) := by
  cases hf : rels.findSome? (relationCheck (entityNames g) VALID_RELATION_TYPES) with
  | none =>
    exfalso
    obtain ⟨r, hr, hmiss⟩ := h
    have hnone := (List.findSome?_eq_none_iff.mp hf) r hr
    have h3 := (relationCheck_eq_none_iff _ _ r).mp hnone
    tauto
  | some err =>
    have herr : createRelations VALID_RELATION_TYPES g rels = .error err := by
      simp only [createRelations, hf]
    refine ⟨⟨err, herr⟩, by rw [herr]; rfl, ?_⟩
    intro hall
    obtain ⟨r, hr, hcheck⟩ := List.exists_of_findSome?_eq_some hf
    rcases relationCheck_some_cases _ _ _ _ hcheck with ⟨n, hn, rfl⟩ | ⟨hnv, _⟩
    · exact ⟨n, hn, herr⟩
    · exact absurd (hall r hr) hnv

/-- Witness for the amended C1 at the spec scenario: `A` exists, `Ghost`
does not; the call fails with `EntityNotFound "Ghost"` and persists
nothing. -/
theorem C1_referential_integrity_amended_witness :
    (∃ err, createRelations VALID_RELATION_TYPES gC1 [⟨"A", "Ghost", "contains"⟩] = .error err) ∧
    persistedAfter gC1 (createRelations VALID_RELATION_TYPES gC1 [⟨"A", "Ghost", "contains"⟩]) = gC1 ∧
    ((∀ r ∈ [(⟨"A", "Ghost", "contains"⟩ : Relation)], r.relationType ∈ VALID_RELATION_TYPES) →
      ∃ n, n ∉ entityNames gC1 ∧
        createRelations VALID_RELATION_TYPES gC1 [⟨"A", "Ghost", "contains"⟩] =
          .error (.entityNotFound n)) :=
  C1_referential_integrity_amended gC1 [⟨"A", "Ghost", "contains"⟩] (by decide)

/-- C2 fails as stated: an entity whose name already exists but whose
entityType is outside the closed set makes `createEntities` throw the
invalid-type error instead of returning the silent no-op. -/
theorem C2_counterexample :
    (eC2.name ∈ entityNames gC1) ∧
    exceptOk (createEntities VALID_ENTITY_TYPES gC1 [eC2]) = false := by
  decide

/-- C2 amended: for an entity whose name already exists and whose
entityType is in the closed set, `createEntities` returns the unchanged
graph and an empty created-list, and the persisted graph is identical. -/
theorem C2_duplicate_noop_amended (g : KnowledgeGraph) (e : Entity)
    (h1 : e.name ∈ entityNames g) (h2 : e.entityType ∈ VALID_ENTITY_TYPES) :
    createEntities VALID_ENTITY_TYPES g [e] = .ok (g, []) ∧
    persistedAfter g (createEntities VALID_ENTITY_TYPES g [e]) = g := by
  have hv : (VALID_ENTITY_TYPES.contains e.entityType) = true := by simpa using h2
  have hn : ((entityNames g).contains e.name) = true := by simpa using h1
  have hok : createEntities VALID_ENTITY_TYPES g [e] = .ok (g, []) := by
    simp [createEntities, h1, h2]
  exact ⟨hok, by rw [hok]; rfl⟩

/-- Witness for the amended C2: re-creating the existing entity `A` with
its valid type is a silent no-op. -/
theorem C2_duplicate_noop_amended_witness :
    createEntities VALID_ENTITY_TYPES gC1 [⟨"A", "project", ["other"]⟩] = .ok (gC1, []) ∧
    persistedAfter gC1 (createEntities VALID_ENTITY_TYPES gC1 [⟨"A", "project", ["other"]⟩]) = gC1 :=
  C2_duplicate_noop_amended gC1 ⟨"A", "project", ["other"]⟩ (by decide) (by decide)

theorem pushObsFirst_map_name (es : List Entity) (n : String) (objs : List String) :
    (pushObsFirst es n objs).map Entity.name = es.map Entity.name := by
  induction es with
  | nil => rfl
  | cons e rest ih =>
    unfold pushObsFirst
    by_cases h : (e.name == n) = true <;> simp [h, ih]

theorem find?_name_isSome_iff (g : KnowledgeGraph) (n : String) :
    (g.entities.find? (fun e => e.name == n)).isSome ↔ n ∈ entityNames g := by
  rw [List.find?_isSome]
  simp [mem_entityNames]

/-- C3: a validation error in `createEntities`, `createRelations` or
`addObservations` leaves the persisted graph file exactly as it was (the
source calls `saveGraph` only after the whole batch went through); in
particular an `addObservations` batch whose first target exists and whose
second target is absent fails with `EntityNotFound` for the second target
and persists nothing. -/
theorem C3_no_partial_commit :
    (∀ (V : List String) (g : KnowledgeGraph) (es : List Entity) (err : GraphError),
      createEntities V g es = .error err → persistedAfter g (createEntities V g es) = g) ∧
    (∀ (V : List String) (g : KnowledgeGraph) (rels : List Relation) (err : GraphError),
      createRelations V g rels = .error err → persistedAfter g (createRelations V g rels) = g) ∧
    (∀ (g : KnowledgeGraph) (obs : List ObservationAdd) (err : GraphError),
      addObservations g obs = .error err → persistedAfter g (addObservations g obs) = g) ∧
    (∀ (g : KnowledgeGraph) (n1 n2 : String) (c1 c2 : List String),
      n1 ∈ entityNames g → n2 ∉ entityNames g →
      addObservations g [⟨n1, c1⟩, ⟨n2, c2⟩] = .error (.entityNotFound n2) ∧
      persistedAfter g (addObservations g [⟨n1, c1⟩, ⟨n2, c2⟩]) = g) := by
  refine ⟨?_, ?_, ?_, ?_⟩
  · intro V g es err h; rw [h]; rfl
  · intro V g rels err h; rw [h]; rfl
  · intro g obs err h; rw [h]; rfl
  · intro g n1 n2 c1 c2 h1 h2
    have hsome : (g.entities.find? (fun e => e.name == n1)).isSome :=
      (find?_name_isSome_iff g n1).mpr h1
    obtain ⟨ent, hent⟩ := Option.isSome_iff_exists.mp hsome
    have hnone : ∀ objs : List String,
        (pushObsFirst g.entities n1 objs).find? (fun e => e.name == n2) = none := by
      intro objs
      rw [List.find?_eq_none]
      intro e he
      have hmem : e.name ∈ g.entities.map Entity.name := by
        rw [← pushObsFirst_map_name g.entities n1 objs]
        exact List.mem_map_of_mem _ he
      have hne : e.name ≠ n2 := fun heq => h2 (heq ▸ hmem)
      simp [hne]
    have herr : addObservations g [⟨n1, c1⟩, ⟨n2, c2⟩] = .error (.entityNotFound n2) := by
      simp only [addObservations, addObservationsGo, hent, hnone]
    exact ⟨herr, by rw [herr]; rfl⟩

/-- Witness for C3: each operation, hit by a validation error on the
witness graph, leaves the persisted graph untouched; the two-target
`addObservations` batch fails on the absent second target. -/
theorem C3_no_partial_commit_witness :
    persistedAfter gW3 (createEntities VALID_ENTITY_TYPES gW3 [eC2]) = gW3 ∧
    persistedAfter gW3 (createRelations VALID_RELATION_TYPES gW3 [⟨"A", "Ghost", "contains"⟩]) = gW3 ∧
    persistedAfter gW3 (addObservations gW3 [⟨"Ghost", ["x"]⟩]) = gW3 ∧
    addObservations gW3 [⟨"A", ["new obs"]⟩, ⟨"Ghost", ["y"]⟩] = .error (.entityNotFound "Ghost") := by
  refine ⟨?_, ?_, ?_, ?_⟩
  · exact C3_no_partial_commit.1 _ _ _ (.invalidEntityType "not_a_type") (by decide)
  · exact C3_no_partial_commit.2.1 _ _ _ (.entityNotFound "Ghost") (by decide)
  · exact C3_no_partial_commit.2.2.1 _ _ (.entityNotFound "Ghost") (by decide)
  · exact (C3_no_partial_commit.2.2.2 gW3 "A" "Ghost" ["new obs"] ["y"]
      (by decide) (by decide)).1

theorem contains_false_iff (l : List String) (a : String) :
    l.contains a = false ↔ a ∉ l := by
  rw [← Bool.not_eq_true]
  simp

theorem createRelations_singleton (V : List String) (g : KnowledgeGraph) (r : Relation)
    (hf : r.«from» ∈ entityNames g) (ht : r.«to» ∈ entityNames g)
    (hv : r.relationType ∈ V) :
    createRelations V g [r] =
      if (g.relations.map relKey).contains (relKey r) then .ok (g, [])
      else .ok ({ g with relations := g.relations ++ [r] }, [r]) := by
  have hchk : relationCheck (entityNames g) V r = none :=
    (relationCheck_eq_none_iff _ _ r).mpr ⟨hf, ht, hv⟩
  have hfind : (([r] : List Relation).findSome? (relationCheck (entityNames g) V)) = none := by
    simp only [List.findSome?_cons, hchk, List.findSome?_nil]
  by_cases hc : ((g.relations.map relKey).contains (relKey r)) = true
  · rw [if_pos hc]
    have hfil : (([r] : List Relation).filter
        (fun x => !((g.relations.map relKey).contains (relKey x)))) = [] := by
      simp only [List.filter_cons, hc, Bool.not_true, List.filter_nil]
      rfl
    simp only [createRelations, hfind, hfil, List.append_nil]
  · rw [if_neg hc]
    have hc2 : ((g.relations.map relKey).contains (relKey r)) = false :=
      Bool.not_eq_true _ ▸ (by simpa using hc)
    have hfil : (([r] : List Relation).filter
        (fun x => !((g.relations.map relKey).contains (relKey x)))) = [r] := by
      simp only [List.filter_cons, hc2, Bool.not_false, List.filter_nil]
      rfl
    simp only [createRelations, hfind, hfil]

theorem find?_pushObsFirst (es : List Entity) (n : String) (objs : List String) (ent : Entity)
    (hent : es.find? (fun e => e.name == n) = some ent) :
    (pushObsFirst es n objs).find? (fun e => e.name == n) =
      some { ent with observations := ent.observations ++ objs } := by
  induction es with
  | nil => cases hent
  | cons e rest ih =>
    by_cases h : (e.name == n) = true
    · simp only [List.find?_cons, h] at hent
      cases hent
      simp [pushObsFirst, h, List.find?_cons]
    · simp only [List.find?_cons, h] at hent
      simp only [pushObsFirst, h, Bool.false_eq_true, if_false, List.find?_cons]
      exact ih hent

theorem addObservations_singleton (g : KnowledgeGraph) (n s : String) (ent : Entity)
    (objs : List String)
    (hent : g.entities.find? (fun e => e.name == n) = some ent)
    (hobjs : objs = if ent.observations.contains s then [] else [s]) :
    addObservations g [⟨n, [s]⟩] =
      .ok ({ g with entities := pushObsFirst g.entities n objs }, [⟨n, objs⟩]) := by
  by_cases hc : (ent.observations.contains s) = true
  · rw [if_pos hc] at hobjs
    subst hobjs
    have hfil : (([s] : List String).filter (fun c => !(ent.observations.contains c))) = [] := by
      simp only [List.filter_cons, hc, Bool.not_true, Bool.false_eq_true, if_false,
        List.filter_nil]
    simp only [addObservations, addObservationsGo, hent, hfil]
  · have hc2 : (ent.observations.contains s) = false := by
      cases hb : ent.observations.contains s
      · rfl
      · exact absurd hb hc
    have hobjs2 : objs = [s] := by
      rw [hobjs, if_neg hc]
    subst hobjs2
    have hfil : (([s] : List String).filter (fun c => !(ent.observations.contains c))) = [s] := by
      simp only [List.filter_cons, hc2, Bool.not_false, if_true, List.filter_nil]
    simp only [addObservations, addObservationsGo, hent, hfil]

/-- C4 fails as stated: the dedup key is the colon-joined string
`from:to:relationType`, and the distinct triple `rColl2` already in the
graph has the same key as `rColl1`, so both calls drop `rColl1` and the
stored graph ends with zero copies of it instead of exactly one. -/
theorem C4_counterexample :
    rColl1 ≠ rColl2 ∧ rColl2 ∈ gC4.relations ∧
    rColl1.«from» ∈ entityNames gC4 ∧ rColl1.«to» ∈ entityNames gC4 ∧
    rColl1.relationType ∈ VALID_RELATION_TYPES ∧
    exceptOk (createRelations VALID_RELATION_TYPES gC4 [rColl1]) = true ∧
    ((persistedAfter (persistedAfter gC4 (createRelations VALID_RELATION_TYPES gC4 [rColl1]))
        (createRelations VALID_RELATION_TYPES
          (persistedAfter gC4 (createRelations VALID_RELATION_TYPES gC4 [rColl1]))
          [rColl1])).relations.count rColl1) = 0 := by
  decide

/-- C4 amended: the dedup laws hold once the colon-joined key is taken
into account.  If no relation of the graph other than `r` itself shares
the key of `r` and the graph holds at most one copy of `r`, two
`createRelations` calls with the singleton batch `[r]` (endpoints present,
type valid) leave exactly one copy of `r`; if the first entity named `n`
holds the content string `s` at most once, two `addObservations` calls
with `[s]` for `n` leave exactly one copy of `s` in its observation
list. -/
theorem C4_dedup_amended (g : KnowledgeGraph) (r : Relation) (n s : String)
    (hk : ∀ r2 ∈ g.relations, relKey r2 = relKey r → r2 = r)
    (hcount : g.relations.count r ≤ 1)
    (hf : r.«from» ∈ entityNames g) (ht : r.«to» ∈ entityNames g)
    (hv : r.relationType ∈ VALID_RELATION_TYPES)
    (hn : n ∈ entityNames g)
    (hobs : (obsOf g n).count s ≤ 1) :
    ((persistedAfter (persistedAfter g (createRelations VALID_RELATION_TYPES g [r]))
        (createRelations VALID_RELATION_TYPES
          (persistedAfter g (createRelations VALID_RELATION_TYPES g [r]))
          [r])).relations.count r = 1) ∧
    ((obsOf (persistedAfter (persistedAfter g (addObservations g [⟨n, [s]⟩]))
        (addObservations (persistedAfter g (addObservations g [⟨n, [s]⟩])) [⟨n, [s]⟩]))
      n).count s = 1) := by
  constructor
  · by_cases hc : ((g.relations.map relKey).contains (relKey r)) = true
    · -- some relation already carries the key; by hypothesis it is r itself
      have hrmem : r ∈ g.relations := by
        have : relKey r ∈ g.relations.map relKey := by simpa using hc
        obtain ⟨r2, hr2, hkey⟩ := List.mem_map.mp this
        exact (hk r2 hr2 hkey) ▸ hr2
      have hone : g.relations.count r = 1 :=
        le_antisymm hcount (List.count_pos_iff.mpr hrmem)
      rw [createRelations_singleton _ _ _ hf ht hv, if_pos hc]
      simp only [persistedAfter]
      rw [createRelations_singleton _ _ _ hf ht hv, if_pos hc]
      simpa using hone
    · -- the key is new: the first call appends r, the second drops it
      have hrnot : r ∉ g.relations := by
        intro hmem
        exact absurd (by simpa using List.mem_map_of_mem relKey hmem) hc
      rw [createRelations_singleton _ _ _ hf ht hv, if_neg hc]
      simp only [persistedAfter]
      set g1 : KnowledgeGraph := { g with relations := g.relations ++ [r] } with hg1
      have hf1 : r.«from» ∈ entityNames g1 := hf
      have ht1 : r.«to» ∈ entityNames g1 := ht
      have hc1 : ((g1.relations.map relKey).contains (relKey r)) = true := by
        rw [hg1]
        simp [relKey]
      rw [createRelations_singleton _ _ _ hf1 ht1 hv, if_pos hc1]
      simp only [persistedAfter, hg1, List.count_append]
      rw [List.count_eq_zero.mpr hrnot]
      simp
  · obtain ⟨ent, hent⟩ := Option.isSome_iff_exists.mp ((find?_name_isSome_iff g n).mpr hn)
    have hobsOf : obsOf g n = ent.observations := by
      simp [obsOf, hent]
    by_cases hc : (ent.observations.contains s) = true
    · -- s already present exactly once: both calls add nothing
      have hone : ent.observations.count s = 1 := by
        refine le_antisymm (hobsOf ▸ hobs) (List.count_pos_iff.mpr ?_)
        simpa using hc
      have h1 := addObservations_singleton g n s ent [] hent (by rw [if_pos hc])
      rw [h1]
      simp only [persistedAfter]
      have hent1 : (pushObsFirst g.entities n []).find? (fun e => e.name == n) =
          some { ent with observations := ent.observations ++ [] } :=
        find?_pushObsFirst g.entities n [] ent hent
      have hc1 : ((ent.observations ++ []).contains s) = true := by simpa using hc
      have h2 := addObservations_singleton
        { g with entities := pushObsFirst g.entities n [] } n s
        { ent with observations := ent.observations ++ [] } [] hent1 (by rw [if_pos hc1])
      rw [h2]
      simp only [persistedAfter, obsOf]
      rw [find?_pushObsFirst _ n [] _ hent1]
      simpa using hone
    · -- s absent: the first call appends it, the second drops it
      have hc2 : (ent.observations.contains s) = false := by
        cases hb : ent.observations.contains s
        · rfl
        · exact absurd hb hc
      have hzero : ent.observations.count s = 0 :=
        List.count_eq_zero.mpr ((contains_false_iff _ s).mp hc2)
      have h1 := addObservations_singleton g n s ent [s] hent (by rw [if_neg hc])
      rw [h1]
      simp only [persistedAfter]
      have hent1 : (pushObsFirst g.entities n [s]).find? (fun e => e.name == n) =
          some { ent with observations := ent.observations ++ [s] } :=
        find?_pushObsFirst g.entities n [s] ent hent
      have hc1 : ((ent.observations ++ [s]).contains s) = true := by simp
      have h2 := addObservations_singleton
        { g with entities := pushObsFirst g.entities n [s] } n s
        { ent with observations := ent.observations ++ [s] } [] hent1 (by rw [if_pos hc1])
      rw [h2]
      simp only [persistedAfter, obsOf]
      rw [find?_pushObsFirst _ n [] _ hent1]
      simp [List.count_append, hzero]

/-- Witness for the amended C4 on a fresh pair: adding the relation twice
stores it once, adding the observation twice stores it once. -/
theorem C4_dedup_amended_witness :
    ((persistedAfter (persistedAfter gW5 (createRelations VALID_RELATION_TYPES gW5
        [⟨"Y", "X", "part_of"⟩]))
      (createRelations VALID_RELATION_TYPES
        (persistedAfter gW5 (createRelations VALID_RELATION_TYPES gW5 [⟨"Y", "X", "part_of"⟩]))
        [⟨"Y", "X", "part_of"⟩])).relations.count ⟨"Y", "X", "part_of"⟩ = 1) ∧
    ((obsOf (persistedAfter (persistedAfter gW5 (addObservations gW5 [⟨"X", ["fresh"]⟩]))
        (addObservations (persistedAfter gW5 (addObservations gW5 [⟨"X", ["fresh"]⟩]))
          [⟨"X", ["fresh"]⟩])) "X").count "fresh" = 1) :=
  C4_dedup_amended gW5 ⟨"Y", "X", "part_of"⟩ "X" "fresh"
    (by decide) (by decide) (by decide) (by decide) (by decide) (by decide) (by decide)

theorem entityMatchesTerms_iff (terms : List String) (e : Entity) :
    entityMatchesTerms terms e = true ↔ ∀ t ∈ terms, TermMatchesE t e := by
  simp only [entityMatchesTerms, List.all_eq_true]
  refine forall_congr' (fun t => forall_congr' (fun ht => ?_))
  simp only [Bool.or_eq_true, List.any_eq_true, strIncludes_iff, TermMatchesE]
  tauto

theorem contains_true_iff (l : List String) (a : String) :
    l.contains a = true ↔ a ∈ l := by
  simp

theorem matchingNames_contains_iff (g : KnowledgeGraph) (terms : List String) (x : String) :
    (((g.entities.filter (entityMatchesTerms terms)).map Entity.name).contains x) = true ↔
      ∃ e ∈ g.entities, e.name = x ∧ ∀ t ∈ terms, TermMatchesE t e := by
  rw [contains_true_iff]
  simp only [List.mem_map, List.mem_filter, entityMatchesTerms_iff]
  constructor
  · rintro ⟨e, ⟨he, hm⟩, hname⟩
    exact ⟨e, he, hname, hm⟩
  · rintro ⟨e, he, hname, hm⟩
    exact ⟨e, ⟨he, hm⟩, hname⟩

/-- C6: an entity is returned by `searchNodes` exactly when every
whitespace token of the lowercased query occurs (case-insensitively) as a
substring of its name, of its entityType, or of one of its observations;
the returned relations are exactly those of the graph whose two endpoints
both name matching entities (the induced subgraph).  Stated on graphs
whose entity names are unique, which is the documented invariant. -/
theorem C6_search_nodes (g : KnowledgeGraph) (q : String)
    (hnd : (entityNames g).Nodup) :
    (∀ e, e ∈ (searchNodes g q).entities ↔
      e ∈ g.entities ∧ ∀ t ∈ queryTerms q, TermMatchesE t e) ∧
    (∀ r, r ∈ (searchNodes g q).relations ↔
      r ∈ g.relations ∧
      (∃ e ∈ g.entities, e.name = r.«from» ∧ ∀ t ∈ queryTerms q, TermMatchesE t e) ∧
      (∃ e ∈ g.entities, e.name = r.«to» ∧ ∀ t ∈ queryTerms q, TermMatchesE t e)) := by
  have hnd2 : (g.entities.map Entity.name).Nodup := hnd
  constructor
  · intro e
    simp only [searchNodes, List.mem_filter]
    constructor
    · rintro ⟨he, hc⟩
      obtain ⟨e2, he2, hname, hm⟩ := (matchingNames_contains_iff g (queryTerms q) e.name).mp hc
      have heq : e2 = e := List.inj_on_of_nodup_map hnd2 he2 he hname
      exact ⟨he, heq ▸ hm⟩
    · rintro ⟨he, hm⟩
      exact ⟨he, (matchingNames_contains_iff g (queryTerms q) e.name).mpr ⟨e, he, rfl, hm⟩⟩
  · intro r
    simp only [searchNodes, List.mem_filter, Bool.and_eq_true]
    constructor
    · rintro ⟨hr, hcf, hct⟩
      exact ⟨hr, (matchingNames_contains_iff g _ _).mp hcf,
        (matchingNames_contains_iff g _ _).mp hct⟩
    · rintro ⟨hr, h1, h2⟩
      exact ⟨hr, (matchingNames_contains_iff g _ _).mpr h1,
        (matchingNames_contains_iff g _ _).mpr h2⟩

theorem termMatchesE_iff_b (t : String) (e : Entity) :
    TermMatchesE t e ↔ (strIncludes (lower e.name) t || strIncludes (lower e.entityType) t ||
      e.observations.any (fun o => strIncludes (lower o) t)) = true := by
  simp only [Bool.or_eq_true, List.any_eq_true, strIncludes_iff, TermMatchesE]
  tauto

instance (t : String) (e : Entity) : Decidable (TermMatchesE t e) :=
  decidable_of_iff _ (termMatchesE_iff_b t e).symm

/-- Witness for C6 at the spec example: querying `income regression`
returns `Age_Income_Regression` (both tokens match its fields) and does
not return `Income_Distribution` (only one token matches). -/
theorem C6_search_nodes_witness :
    ((⟨"Age_Income_Regression", "statisticalTest", ["tests income vs age"]⟩ : Entity) ∈
      (searchNodes gW6 "income regression").entities) ∧
    ((⟨"Income_Distribution", "visualization", ["income histogram"]⟩ : Entity) ∉
      (searchNodes gW6 "income regression").entities) := by
  constructor
  · exact ((C6_search_nodes gW6 "income regression" (by decide)).1 _).mpr
      ⟨by decide, by decide⟩
  · intro h
    have hm := ((C6_search_nodes gW6 "income regression" (by decide)).1 _).mp h
    exact absurd hm.2 (by decide)

/-- C10: the update-existing-entity path of the endsession assembly
commit (deleteEntities then createEntities with rebuilt observations)
succeeds for a valid entity type, stores the rebuilt entity, and — because
deleteEntities cascades — leaves no relation whose `from` or `to` is the
updated name: every relation that involved the entity before the commit is
gone unless separately re-created. -/
theorem C10_update_path_cascades (V : List String) (g : KnowledgeGraph)
    (name ty : String) (obs : List String) (hty : ty ∈ V) :
    ∃ g2, updateEntityViaDeleteCreate V g name ty obs = .ok (g2, [⟨name, ty, obs⟩]) ∧
      g2.relations = (deleteEntities g [name]).relations ∧
      (∀ r ∈ g2.relations, r.«from» ≠ name ∧ r.«to» ≠ name) ∧
      (⟨name, ty, obs⟩ : Entity) ∈ g2.entities := by
  have hfind : (([(⟨name, ty, obs⟩ : Entity)]).find?
      (fun e => !(V.contains e.entityType))) = none := by
    simp [List.find?_cons, hty]
  have hnotin : (((entityNames (deleteEntities g [name]))).contains name) = false := by
    refine (contains_false_iff _ _).mpr ?_
    intro hmem
    obtain ⟨e, he, hname⟩ := mem_entityNames.mp hmem
    have hfl := (List.mem_filter.mp he).2
    simp [hname] at hfl
  have hfil : (([(⟨name, ty, obs⟩ : Entity)]).filter
      (fun e => !((entityNames (deleteEntities g [name])).contains e.name))) =
      [⟨name, ty, obs⟩] := by
    simp only [List.filter_cons, hnotin, Bool.not_false, if_true, List.filter_nil]
  refine ⟨{ deleteEntities g [name] with
            entities := (deleteEntities g [name]).entities ++ [⟨name, ty, obs⟩] },
          ?_, rfl, ?_, ?_⟩
  · simp only [updateEntityViaDeleteCreate, createEntities, hfind, hfil]
  · intro r hr
    have hfl := (List.mem_filter.mp hr).2
    simp only [List.contains_cons, List.contains_nil, Bool.or_false, Bool.not_eq_true,
      Bool.and_eq_true, Bool.not_eq_false] at hfl
    constructor
    · intro heq
      rw [← heq] at hfl
      simp at hfl
    · intro heq
      rw [← heq] at hfl
      simp at hfl
  · simp

/-- Witness for C10: updating dataset `D` through the delete-then-create
path removes both of the relations that involved `D`. -/
theorem C10_update_path_cascades_witness :
    ∃ g2, updateEntityViaDeleteCreate VALID_ENTITY_TYPES gW10 "D" "dataset"
        ["size:20", "updated:2024-01-01"] = .ok (g2, [⟨"D", "dataset",
          ["size:20", "updated:2024-01-01"]⟩]) ∧
      g2.relations = (deleteEntities gW10 ["D"]).relations ∧
      (∀ r ∈ g2.relations, r.«from» ≠ "D" ∧ r.«to» ≠ "D") ∧
      (⟨"D", "dataset", ["size:20", "updated:2024-01-01"]⟩ : Entity) ∈ g2.entities :=
  C10_update_path_cascades VALID_ENTITY_TYPES gW10 "D" "dataset"
    ["size:20", "updated:2024-01-01"] (by decide)

theorem foldl_add_eq_sum (l : List α) (f : α → Nat) :
    l.foldl (fun acc a => acc + f a) 0 = (l.map f).sum := by
  rw [List.sum_eq_foldl, List.foldl_map]

theorem datasetVariables_length (g : KnowledgeGraph) (dn : String) :
    (datasetVariables g dn).length = g.relations.countP (fun rel =>
      rel.relationType == "contains" && rel.«from» == dn &&
      g.entities.any (fun e => e.name == rel.«to» && e.entityType == "variable")) := by
  rw [datasetVariables, List.length_filterMap_eq_countP]
  refine List.countP_congr ?_
  intro rel hrel
  by_cases hcond : (rel.relationType == "contains" && rel.«from» == dn) = true
  · simp only [hcond, if_true, Bool.true_and]
    rw [List.find?_isSome, List.any_eq_true]
  · have hcond2 : (rel.relationType == "contains" && rel.«from» == dn) = false := by
      cases hb : (rel.relationType == "contains" && rel.«from» == dn)
      · rfl
      · exact absurd hb hcond
    simp [hcond2]

/-- C9: `getProjectOverview` succeeds when the project entity is found,
reports that entity, and its `dataCollection.totalVariables` is the sum,
over the datasets linked to the project by a `part_of` edge, of the number
of `contains` edges from that dataset to a variable-typed entity; on the
spec example graph (`Proj` with dataset `D` containing variable `V`) the
count is 1.  The function is a pure read: it returns no graph and the
source never calls `saveGraph` in it. -/
theorem C9_total_variables :
    (∀ (g : KnowledgeGraph) (pn : String) (project : Entity),
      g.entities.find? (fun e => e.name == pn && e.entityType == "project") = some project →
      ∃ ov, getProjectOverview g pn = .ok ov ∧ ov.project = project ∧
        ov.dataCollection.totalVariables =
          ((partOfOfType g pn "dataset").map (fun d => g.relations.countP (fun rel =>
            rel.relationType == "contains" && rel.«from» == d.name &&
            g.entities.any (fun e => e.name == rel.«to» &&
              e.entityType == "variable")))).sum) ∧
    ((getProjectOverview gC9 "Proj").map (fun ov => ov.dataCollection.totalVariables) =
      .ok 1) := by
  constructor
  · intro g pn project hfind
    simp only [getProjectOverview, hfind]
    refine ⟨_, rfl, rfl, ?_⟩
    show (partOfOfType g pn "dataset").foldl
        (fun acc dataset => acc + (datasetVariables g dataset.name).length) 0 = _
    rw [foldl_add_eq_sum]
    simp only [datasetVariables_length]
  · decide

/-- Witness for C9 at the spec example graph. -/
theorem C9_total_variables_witness :
    ∃ ov, getProjectOverview gC9 "Proj" = .ok ov ∧
      ov.project = (⟨"Proj", "project", []⟩ : Entity) ∧
      ov.dataCollection.totalVariables =
        ((partOfOfType gC9 "Proj" "dataset").map (fun d => gC9.relations.countP (fun rel =>
          rel.relationType == "contains" && rel.«from» == d.name &&
          gC9.entities.any (fun e => e.name == rel.«to» &&
            e.entityType == "variable")))).sum :=
  C9_total_variables.1 gC9 "Proj" ⟨"Proj", "project", []⟩ (by decide)

theorem removeObsFirst_map_name (es : List Entity) (n : String) (objs : List String) :
    (removeObsFirst es n objs).map Entity.name = es.map Entity.name := by
  induction es with
  | nil => rfl
  | cons e rest ih =>
    unfold removeObsFirst
    by_cases h : (e.name == n) = true <;> simp [h, ih]

theorem addObservationsGo_ok (obs : List ObservationAdd) (g : KnowledgeGraph)
    (g2 : KnowledgeGraph) (res : List ObservationResult)
    (h : addObservationsGo g obs = .ok (g2, res)) :
    entityNames g2 = entityNames g ∧ g2.relations = g.relations := by
  induction obs generalizing g res with
  | nil =>
    simp only [addObservationsGo, Except.ok.injEq, Prod.mk.injEq] at h
    obtain ⟨h1, _⟩ := h
    subst h1
    exact ⟨rfl, rfl⟩
  | cons o rest ih =>
    simp only [addObservationsGo] at h
    split at h
    · cases h
    · split at h
      · cases h
      · rename_i ent hfind g3 res3 hrec
        simp only [Except.ok.injEq, Prod.mk.injEq] at h
        obtain ⟨h1, _⟩ := h
        subst h1
        obtain ⟨ih1, ih2⟩ := ih _ _ hrec
        refine ⟨?_, ih2⟩
        rw [ih1]
        exact pushObsFirst_map_name _ _ _

theorem mem_entityNames_deleteEntities {g : KnowledgeGraph} {ns : List String} {x : String} :
    x ∈ entityNames (deleteEntities g ns) ↔ x ∈ entityNames g ∧ x ∉ ns := by
  simp only [entityNames, deleteEntities, List.mem_map, List.mem_filter]
  constructor
  · rintro ⟨e, ⟨he, hf⟩, hname⟩
    refine ⟨⟨e, he, hname⟩, ?_⟩
    subst hname
    simpa using hf
  · rintro ⟨⟨e, he, hname⟩, hx⟩
    subst hname
    exact ⟨e, ⟨he, by simpa using hx⟩, rfl⟩

theorem deleteObservations_preserves (ds : List ObservationDelete) (g : KnowledgeGraph) :
    entityNames (deleteObservations g ds) = entityNames g ∧
    (deleteObservations g ds).relations = g.relations := by
  induction ds generalizing g with
  | nil => exact ⟨rfl, rfl⟩
  | cons d rest ih =>
    simp only [deleteObservations, List.foldl_cons]
    have hstep := ih { g with entities := removeObsFirst g.entities d.entityName d.observations }
    simp only [deleteObservations] at hstep
    refine ⟨hstep.1.trans ?_, hstep.2⟩
    exact removeObsFirst_map_name _ _ _

theorem foldl_addEnt_preserves (step : KnowledgeGraph → String → KnowledgeGraph)
    (hrel : ∀ g v, (step g v).relations = g.relations)
    (hnames : ∀ g v x, x ∈ entityNames g → x ∈ entityNames (step g v)) :
    ∀ (l : List String) (g : KnowledgeGraph),
      (l.foldl step g).relations = g.relations ∧
      ∀ x ∈ entityNames g, x ∈ entityNames (l.foldl step g) := by
  intro l
  induction l with
  | nil => exact fun g => ⟨rfl, fun x hx => hx⟩
  | cons v rest ih =>
    intro g
    simp only [List.foldl_cons]
    exact ⟨((ih (step g v)).1).trans (hrel g v),
           fun x hx => (ih _).2 x (hnames g v x hx)⟩

theorem initStatusAndPriority_preserves (g : KnowledgeGraph) :
    (initStatusAndPriority g).relations = g.relations ∧
    ∀ x ∈ entityNames g, x ∈ entityNames (initStatusAndPriority g) := by
  unfold initStatusAndPriority
  have hstat := foldl_addEnt_preserves
    (fun g v =>
      let n := "status:" ++ v
      if g.entities.any (fun e => e.name == n && e.entityType == "status") then g
      else { g with entities := g.entities ++ [⟨n, "status", ["A " ++ v ++ " status value"]⟩] })
    (by
      intro g v
      by_cases h : (g.entities.any (fun e =>
          e.name == ("status:" ++ v) && e.entityType == "status")) = true <;> simp [h])
    (by
      intro g v x hx
      by_cases h : (g.entities.any (fun e =>
          e.name == ("status:" ++ v) && e.entityType == "status")) = true <;>
        simp only [h, if_true, Bool.false_eq_true, if_false] <;>
        simp only [entityNames, List.map_append] at hx ⊢ <;>
        first
          | exact hx
          | exact List.mem_append_left _ hx)
    VALID_STATUS_VALUES g
  have hpri := foldl_addEnt_preserves
    (fun g v =>
      let n := "priority:" ++ v
      if g.entities.any (fun e => e.name == n && e.entityType == "priority") then g
      else { g with entities := g.entities ++ [⟨n, "priority", ["A " ++ v ++ " priority value"]⟩] })
    (by
      intro g v
      by_cases h : (g.entities.any (fun e =>
          e.name == ("priority:" ++ v) && e.entityType == "priority")) = true <;> simp [h])
    (by
      intro g v x hx
      by_cases h : (g.entities.any (fun e =>
          e.name == ("priority:" ++ v) && e.entityType == "priority")) = true <;>
        simp only [h, if_true, Bool.false_eq_true, if_false] <;>
        simp only [entityNames, List.map_append] at hx ⊢ <;>
        first
          | exact hx
          | exact List.mem_append_left _ hx)
    VALID_PRIORITY_VALUES
    (VALID_STATUS_VALUES.foldl
      (fun g v =>
        let n := "status:" ++ v
        if g.entities.any (fun e => e.name == n && e.entityType == "status") then g
        else { g with entities := g.entities ++ [⟨n, "status", ["A " ++ v ++ " status value"]⟩] })
      g)
  exact ⟨hpri.1.trans hstat.1, fun x hx => hpri.2 x (hstat.2 x hx)⟩

/-- C8 fails as stated: starting from the initialized graph (which is
referentially intact), `setEntityStatus` succeeds for a subject entity
`P1` that does not exist and leaves a `has_status` relation whose `from`
names no entity, so the mutation API does not preserve referential
integrity. -/
theorem C8_counterexample :
    refIntactB gInit = true ∧
    exceptOk (setEntityStatus gInit "P1" "active") = true ∧
    refIntactB (persistedAfterSet gInit (setEntityStatus gInit "P1" "active")) = false := by
  decide

/-- C8 amended: every operation of the mutation API preserves referential
integrity except `setEntityStatus` and `setEntityPriority`, which preserve
it only when the subject entity and the target `status:`/`priority:`
entity already exist in the graph (the counterexample shows they can
otherwise introduce a dangling edge). -/
theorem C8_ref_integrity_amended :
    (∀ (V : List String) (g : KnowledgeGraph) (es : List Entity), RefIntact g →
      RefIntact (persistedAfter g (createEntities V g es))) ∧
    (∀ (V : List String) (g : KnowledgeGraph) (rels : List Relation), RefIntact g →
      RefIntact (persistedAfter g (createRelations V g rels))) ∧
    (∀ (g : KnowledgeGraph) (obs : List ObservationAdd), RefIntact g →
      RefIntact (persistedAfter g (addObservations g obs))) ∧
    (∀ (g : KnowledgeGraph) (ns : List String), RefIntact g →
      RefIntact (deleteEntities g ns)) ∧
    (∀ (g : KnowledgeGraph) (ds : List ObservationDelete), RefIntact g →
      RefIntact (deleteObservations g ds)) ∧
    (∀ (g : KnowledgeGraph) (rs : List Relation), RefIntact g →
      RefIntact (deleteRelations g rs)) ∧
    (∀ g : KnowledgeGraph, RefIntact g → RefIntact (initStatusAndPriority g)) ∧
    (∀ (g : KnowledgeGraph) (n v : String), RefIntact g →
      n ∈ entityNames g → ("status:" ++ v) ∈ entityNames g →
      RefIntact (persistedAfterSet g (setEntityStatus g n v))) ∧
    (∀ (g : KnowledgeGraph) (n v : String), RefIntact g →
      n ∈ entityNames g → ("priority:" ++ v) ∈ entityNames g →
      RefIntact (persistedAfterSet g (setEntityPriority g n v))) := by
  refine ⟨?_, ?_, ?_, ?_, ?_, ?_, ?_, ?_, ?_⟩
  · -- createEntities: relations unchanged, entity set grows
    intro V g es hri
    cases hf : es.find? (fun e => !(V.contains e.entityType)) with
    | some e =>
      simp only [createEntities, hf, persistedAfter]
      exact hri
    | none =>
      simp only [createEntities, hf, persistedAfter]
      intro r hr
      obtain ⟨h1, h2⟩ := hri r hr
      constructor
      · simp only [entityNames, List.map_append]
        exact List.mem_append_left _ h1
      · simp only [entityNames, List.map_append]
        exact List.mem_append_left _ h2
  · -- createRelations: every appended relation passed the existence check
    intro V g rels hri
    cases hf : rels.findSome? (relationCheck (entityNames g) V) with
    | some err =>
      simp only [createRelations, hf, persistedAfter]
      exact hri
    | none =>
      simp only [createRelations, hf, persistedAfter]
      intro r hr
      rcases List.mem_append.mp hr with hr | hr
      · exact hri r hr
      · have hr2 := (List.mem_filter.mp hr).1
        have hchk := (List.findSome?_eq_none_iff.mp hf) r hr2
        have hok := (relationCheck_eq_none_iff _ _ r).mp hchk
        exact ⟨hok.1, hok.2.1⟩
  · -- addObservations: names and relations are preserved
    intro g obs hri
    cases h : addObservations g obs with
    | error e =>
      simp only [persistedAfter, h]
      exact hri
    | ok p =>
      obtain ⟨g2, res⟩ := p
      simp only [persistedAfter, h]
      obtain ⟨h1, h2⟩ := addObservationsGo_ok obs g g2 res h
      intro r hr
      rw [h2] at hr
      obtain ⟨hf2, ht2⟩ := hri r hr
      rw [h1]
      exact ⟨hf2, ht2⟩
  · -- deleteEntities: cascading keeps every surviving endpoint
    intro g ns hri r hr
    have hm := List.mem_filter.mp hr
    have hcond := hm.2
    simp only [Bool.and_eq_true, Bool.not_eq_true'] at hcond
    obtain ⟨h1, h2⟩ := hri r hm.1
    exact ⟨mem_entityNames_deleteEntities.mpr ⟨h1, (contains_false_iff _ _).mp hcond.1⟩,
           mem_entityNames_deleteEntities.mpr ⟨h2, (contains_false_iff _ _).mp hcond.2⟩⟩
  · -- deleteObservations: names and relations are preserved
    intro g ds hri r hr
    obtain ⟨h1, h2⟩ := deleteObservations_preserves ds g
    rw [h2] at hr
    obtain ⟨hf2, ht2⟩ := hri r hr
    rw [h1]
    exact ⟨hf2, ht2⟩
  · -- deleteRelations: the relation list only shrinks
    intro g rs hri r hr
    exact hri r (List.mem_filter.mp hr).1
  · -- initializeStatusAndPriority: only appends entities
    intro g hri r hr
    obtain ⟨h1, h2⟩ := initStatusAndPriority_preserves g
    rw [h1] at hr
    obtain ⟨hf2, ht2⟩ := hri r hr
    exact ⟨h2 _ hf2, h2 _ ht2⟩
  · -- setEntityStatus with both endpoints present
    intro g n v hri hn hsv
    by_cases hc : (VALID_STATUS_VALUES.contains v) = true
    · rw [setEntityStatus, if_neg (by simpa using hc)]
      simp only [persistedAfterSet]
      intro r hr
      rcases List.mem_append.mp hr with hr | hr
      · exact hri r (List.mem_filter.mp hr).1
      · simp only [List.mem_singleton] at hr
        subst hr
        exact ⟨hn, hsv⟩
    · rw [setEntityStatus, if_pos (by simpa using hc)]
      simp only [persistedAfterSet]
      exact hri
  · -- setEntityPriority with both endpoints present
    intro g n v hri hn hpv
    by_cases hc : (VALID_PRIORITY_VALUES.contains v) = true
    · rw [setEntityPriority, if_neg (by simpa using hc)]
      simp only [persistedAfterSet]
      intro r hr
      rcases List.mem_append.mp hr with hr | hr
      · exact hri r (List.mem_filter.mp hr).1
      · simp only [List.mem_singleton] at hr
        subst hr
        exact ⟨hn, hpv⟩
    · rw [setEntityPriority, if_pos (by simpa using hc)]
      simp only [persistedAfterSet]
      exact hri

/-- Witness for the amended C8: every conjunct applied on the witness
graph (entities `P1`, `status:active`, `priority:high`). -/
theorem C8_ref_integrity_amended_witness :
    RefIntact (persistedAfter gW8 (createEntities VALID_ENTITY_TYPES_B gW8
      [⟨"D1", "dataset", []⟩])) ∧
    RefIntact (persistedAfter gW8 (createRelations VALID_RELATION_TYPES_B gW8
      [⟨"P1", "status:active", "has_status"⟩])) ∧
    RefIntact (persistedAfter gW8 (addObservations gW8 [⟨"P1", ["note"]⟩])) ∧
    RefIntact (deleteEntities gW8 ["P1"]) ∧
    RefIntact (deleteObservations gW8 [⟨"P1", ["note"]⟩]) ∧
    RefIntact (deleteRelations gW8 [⟨"P1", "status:active", "has_status"⟩]) ∧
    RefIntact (initStatusAndPriority gW8) ∧
    RefIntact (persistedAfterSet gW8 (setEntityStatus gW8 "P1" "active")) ∧
    RefIntact (persistedAfterSet gW8 (setEntityPriority gW8 "P1" "high")) := by
  have hri : RefIntact gW8 := (refIntactB_iff gW8).mp (by decide)
  exact ⟨C8_ref_integrity_amended.1 _ gW8 _ hri,
         C8_ref_integrity_amended.2.1 _ gW8 _ hri,
         C8_ref_integrity_amended.2.2.1 gW8 _ hri,
         C8_ref_integrity_amended.2.2.2.1 gW8 _ hri,
         C8_ref_integrity_amended.2.2.2.2.1 gW8 _ hri,
         C8_ref_integrity_amended.2.2.2.2.2.1 gW8 _ hri,
         C8_ref_integrity_amended.2.2.2.2.2.2.1 gW8 hri,
         C8_ref_integrity_amended.2.2.2.2.2.2.2.1 gW8 "P1" "active" hri
           (by decide) (by decide),
         C8_ref_integrity_amended.2.2.2.2.2.2.2.2 gW8 "P1" "high" hri
           (by decide) (by decide)⟩

/-- Witness for C7: setting `P1` to `active` and then to `completed`
leaves exactly one `has_status` edge out of `P1`, pointing at
`status:completed`; an invalid value is rejected without a change. -/
theorem C7_status_singularity_witness :
    ("bogus" ∉ VALID_STATUS_VALUES ∧
      setEntityStatus emptyG "P1" "bogus" = .error (.invalidStatusValue "bogus")) ∧
    ("active" ∈ VALID_STATUS_VALUES ∧ "completed" ∈ VALID_STATUS_VALUES ∧
      (persistedAfterSet (persistedAfterSet emptyG (setEntityStatus emptyG "P1" "active"))
          (setEntityStatus (persistedAfterSet emptyG (setEntityStatus emptyG "P1" "active"))
            "P1" "completed")).relations.filter
          (fun r => r.«from» == "P1" && r.relationType == "has_status") =
        [⟨"P1", "status:completed", "has_status"⟩]) :=
  ⟨⟨by decide, ((C7_status_singularity emptyG "P1" "bogus" "a" "b").1 (by decide)).1⟩,
   by decide, by decide,
   (C7_status_singularity emptyG "P1" "x" "active" "completed").2.2 (by decide) (by decide)⟩

end QR
